import Mathlib

set_option autoImplicit false

/-!
Verification of the safemocker action-pipeline engine.

The embedding below translates the engine's source files:

* `validation.ts` — `validateInput`, `validateOutput` and the field-error
  accumulation loop over Zod issues;
* `client.ts` — `SchemaBuilder`, `MetadataBuilder`, `MockSafeActionClient`,
  the per-invocation `middlewareChain`, and `createAction`.

The result wrapper (`wrapResult`, `wrapValidationErrors`) and the error
handler (`handleError`) are not part of the available sources; they are
modelled from the specification (their doc comments say so explicitly).

Modelling conventions:

* JS runtime values are the inductive `Value`; JS objects used as
  middleware contexts are ordered association lists (`Ctx`), and the JS
  spread merge used by the chain is `mergeCtx`.
* A Zod schema is abstracted to its parse behavior `SchemaV`: parsing a
  value either succeeds, raises a `ZodError` carrying a list of issues, or
  throws some other error (which `validateInput`/`validateOutput` rethrow).
* A middleware is a function from its call record (current context and
  metadata) to a decision: call `next` once — with or without a context
  patch — and return its result verbatim, return a value without calling
  `next` (short-circuit), or throw.  This covers exactly the middleware
  behaviors the specification describes.
* The per-invocation execution also produces a chronological trace of
  events (which middleware index ran and with which arguments, and whether
  the handler ran and with which context), so that claims about "never
  invoked" and "observes this context" are statements about the trace.
* The client's middleware array is shared by reference between the client
  and every builder/action made from it, and `use` pushes into that live
  array.  Builder objects are themselves mutable
  (`this._outputSchema = ...; return this` in the source), so the builder
  stage is embedded with an explicit object store: builders are ids into
  a store of builder states, `outputSchema` writes the addressed object
  in place and returns the same id, while `metadata` allocates a fresh
  `MetadataBuilder` object.
* The closure returned by `.action` reads `this` at each invocation — the
  live middleware array and the builder object's fields (in particular
  `this._outputSchema`) — so a built action (`BuiltAction`) takes the
  builder store and the client's middleware list as arguments at
  invocation time, not as build-time snapshots: mutating the builder or
  the client after `.action` affects later invocations, as in the source.
-/

namespace Safemocker

/-- JS-like runtime values appearing as inputs, contexts, metadata and
handler results. -/
inductive Value where
  | undef
  | null
  | bool (b : Bool)
  | num (n : Int)
  | str (s : String)
  deriving Repr, DecidableEq

/-- A JS object used as a middleware context: ordered key/value fields. -/
abbrev Ctx := List (String × Value)

/-- First-match association lookup: the JS property read on the
ordered-field object model. -/
def alookup {α : Type} : List (String × α) → String → Option α
  | [], _ => none
  | (k, v) :: rest, key => if k = key then some v else alookup rest key

/-- JS object spread for contexts: in the source the chain computes
`mergedCtx = ... currentCtx , ... newCtx` (spread of the old context then
the patch).  Keys of the old context keep their position with the patch's
value when the patch has that key; keys only in the patch are appended in
the patch's order. -/
def mergeCtx (a b : Ctx) : Ctx :=
  a.map (fun kv => (kv.1, (alookup b kv.1).getD kv.2)) ++
    b.filter (fun kv => (alookup a kv.1).isNone)

/-- A thrown JS error value; `message` is `none` when the thrown value
carries no message. -/
structure JsError where
  message : Option String
  deriving Repr, DecidableEq

/-- One structured validation issue from the adapter (Zod): a path of
segments and a message, as consumed by the `error.issues.forEach` loop in
`validation.ts`. -/
structure Issue where
  path : List String
  message : String
  deriving Repr, DecidableEq

/-- Outcome of `schema.parse(x)`: a parsed value, a thrown `ZodError`
carrying structured issues, or a thrown non-Zod error (which the
validation helpers rethrow). -/
inductive ParseOutcome where
  | ok (v : Value)
  | zodError (issues : List Issue)
  | thrown (e : JsError)

/-- A Zod schema, abstracted to its parse behavior. -/
def SchemaV := Value → ParseOutcome

/-- The mapping from dot-joined paths to ordered message sequences built
for `fieldErrors` / `validationErrors`; ordered to capture JS object key
insertion order. -/
abbrev ErrMap := List (String × List String)

/-- The result envelope, `SafeActionResult` from `types.ts` (shape given
by the spec and by the literal envelope built in `validateOutput`): four
optional slots. -/
structure SafeActionResult where
  data : Option Value
  serverError : Option String
  fieldErrors : Option ErrMap
  validationErrors : Option ErrMap
  deriving Repr, DecidableEq

/-- How many of the four envelope slots are present. -/
def presentCount (r : SafeActionResult) : Nat :=
  (if r.data.isSome then 1 else 0) + (if r.serverError.isSome then 1 else 0) +
    (if r.fieldErrors.isSome then 1 else 0) +
    (if r.validationErrors.isSome then 1 else 0)

/-- One step of the issue-accumulation loop in `validation.ts`:
`fieldErrors[path] = fieldErrors[path] || []; fieldErrors[path].push(message)` —
append the message to the existing entry for `key`, or create the entry at
the end of the mapping when `key` is new. -/
def addMsg : ErrMap → String → String → ErrMap
  | [], key, msg => [(key, [msg])]
  | (k, msgs) :: rest, key, msg =>
    if k = key then (k, msgs ++ [msg]) :: rest
    else (k, msgs) :: addMsg rest key msg

/-- The dot-joined mapping key of an issue: `issue.path.join('.')`. -/
def issueKey (i : Issue) : String :=
  String.intercalate "." i.path

/-- The `error.issues.forEach` loop of `validation.ts`, shared verbatim by
`validateInput` and `validateOutput`: fold every issue into the mapping. -/
def buildFieldErrors (issues : List Issue) : ErrMap :=
  issues.foldl (fun m i => addMsg m (issueKey i) i.message) []

/-- Modelled from the spec: `result-wrapper.ts` is not among the available
sources.  Per the spec, input-validation failure returns "a result
containing only `fieldErrors`". -/
def wrapValidationErrors (fieldErrors : ErrMap) : SafeActionResult :=
  { data := none, serverError := none, fieldErrors := some fieldErrors,
    validationErrors := none }

/-- Modelled from the spec: `result-wrapper.ts` is not among the available
sources.  Per the spec, success wrapping wraps the resulting value as
`data` "with the other three slots absent". -/
def wrapResult (v : Value) : SafeActionResult :=
  { data := some v, serverError := none, fieldErrors := none,
    validationErrors := none }

/-- Client-wide auth defaults (`Required` auth config from `types.ts`,
fields per the constructor of `MockSafeActionClient`). -/
structure AuthConfig where
  enabled : Bool
  testUserId : String
  testUserEmail : String
  testAuthToken : String
  deriving Repr, DecidableEq

/-- The fully-defaulted client configuration
(`Required MockSafeActionClientConfig`). -/
structure Config where
  defaultServerError : String
  isProduction : Bool
  auth : AuthConfig
  deriving Repr, DecidableEq

/-- Modelled from the spec: `error-handler.ts` is not among the available
sources.  Per the spec's error-handler section: in production the result is
the configured default message regardless of the error's own message;
otherwise the error's own message when it carries one, else the default. -/
def handleError (e : JsError) (cfg : Config) : SafeActionResult :=
  if cfg.isProduction then
    { data := none, serverError := some cfg.defaultServerError,
      fieldErrors := none, validationErrors := none }
  else
    { data := none,
      serverError := some (match e.message with
        | some m => m
        | none => cfg.defaultServerError),
      fieldErrors := none, validationErrors := none }

/-- Result shape of the validation helpers in `validation.ts`: typed
success, a ready-made failure envelope, or a rethrown non-Zod error. -/
inductive Validated where
  | success (data : Value)
  | failure (result : SafeActionResult)
  | thrown (e : JsError)

/-- `validateInput` from `validation.ts`: parse, and on a `ZodError` build
the dot-keyed `fieldErrors` mapping and wrap it; rethrow anything else. -/
def validateInput (input : Value) (schema : SchemaV) : Validated :=
  match schema input with
  | .ok v => .success v
  | .zodError issues => .failure (wrapValidationErrors (buildFieldErrors issues))
  | .thrown e => .thrown e

/-- `validateOutput` from `validation.ts`: identical accumulation, but the
mapping is placed in the `validationErrors` slot of a literal envelope
whose other three slots are absent. -/
def validateOutput (output : Value) (schema : SchemaV) : Validated :=
  match schema output with
  | .ok v => .success v
  | .zodError issues =>
    .failure { data := none, serverError := none, fieldErrors := none,
               validationErrors := some (buildFieldErrors issues) }
  | .thrown e => .thrown e

/-- The call record a middleware receives: current context and the
action's metadata (`undefined` when built without `.metadata`). -/
structure MwArgs where
  ctx : Ctx
  metadata : Value
  deriving Repr, DecidableEq

/-- What a middleware does with its call record: call `next` once (with an
optional context patch) and return its result verbatim, return a value
directly (short-circuit), or throw. -/
inductive MwDecision where
  | next (patch : Option Ctx)
  | ret (v : Value)
  | throwE (e : JsError)
  deriving Repr, DecidableEq

/-- A middleware: a function of its call record deciding how to proceed. -/
def Middleware := MwArgs → MwDecision

/-- A user handler: receives the parsed input and the accumulated context
and either returns a value or throws. -/
def Handler := Value → Ctx → Except JsError Value

/-- Chronological execution-trace events of one invocation. -/
inductive Event where
  | mwCalled (index : Nat) (args : MwArgs)
  | handlerCalled (parsedInput : Value) (ctx : Ctx)
  deriving Repr, DecidableEq

/-- The per-invocation `middlewareChain` of `client.ts`: past the end of
the list, run the handler with the accumulated context; otherwise call the
middleware at `index` with the current context and metadata, where its
`next` resumes the chain at `index + 1` with the context spread-merged
with the patch (`params?.ctx || {}` — no patch merges the empty object).
The second component is the chronological event trace. -/
def middlewareChain (metadata : Value) (handler : Handler) (parsedInput : Value) :
    List Middleware → Nat → Ctx → Except JsError Value × List Event
  | [], _, ctx =>
    (handler parsedInput ctx, [.handlerCalled parsedInput ctx])
  | mw :: rest, index, ctx =>
    match mw ⟨ctx, metadata⟩ with
    | .next patch =>
      let r := middlewareChain metadata handler parsedInput rest (index + 1)
        (mergeCtx ctx (patch.getD []))
      (r.1, .mwCalled index ⟨ctx, metadata⟩ :: r.2)
    | .ret v => (.ok v, [.mwCalled index ⟨ctx, metadata⟩])
    | .throwE e => (.error e, [.mwCalled index ⟨ctx, metadata⟩])

/-- Steps 3–4 of `createAction`: validate the handler result against the
output schema when one is registered (returning its failure envelope, or
wrapping the validated value), otherwise wrap the raw handler result; a
rethrown parse error falls to the outer catch, i.e. `handleError`. -/
def finishOutput (outSchema : Option SchemaV) (cfg : Config) (handlerResult : Value) :
    SafeActionResult :=
  match outSchema with
  | none => wrapResult handlerResult
  | some os =>
    match validateOutput handlerResult os with
    | .failure r => r
    | .thrown e => handleError e cfg
    | .success validated => wrapResult validated

/-- Steps 2–4 of `createAction` after successful input validation: run the
middleware chain from index 0 with an empty context (`let context = ...;
middlewareChain(0, context)`), convert a thrown error anywhere in the
chain through `handleError`, otherwise output-validate and wrap the
handler result. -/
def runChainAndFinish (outSchema : Option SchemaV) (metadata : Value) (cfg : Config)
    (handler : Handler) (mws : List Middleware) (parsed : Value) :
    SafeActionResult × List Event :=
  match middlewareChain metadata handler parsed mws 0 [] with
  | (.error e, tr) => (handleError e cfg, tr)
  | (.ok handlerResult, tr) => (finishOutput outSchema cfg handlerResult, tr)

/-- `createAction` from `client.ts` (both builders share this body):
validate input (returning its `fieldErrors` envelope on failure and
running nothing else), then run the chain and wrap.  Also returns the
invocation's event trace (`[]` when the chain never ran). -/
def createAction (schema : SchemaV) (outSchema : Option SchemaV) (metadata : Value)
    (cfg : Config) (handler : Handler) (mws : List Middleware) (input : Value) :
    SafeActionResult × List Event :=
  match validateInput input schema with
  | .failure r => (r, [])
  | .thrown e => (handleError e cfg, [])
  | .success parsed => runChainAndFinish outSchema metadata cfg handler mws parsed

/-- State of a `SchemaBuilder` object: the captured input schema and
config snapshot, and the mutable `_outputSchema` field.  The middleware
array reference it also captures is modelled by `BuiltAction` reading the
client's list at invocation time. -/
structure SBState where
  schema : SchemaV
  config : Config
  outSchemaF : Option SchemaV

/-- State of a `MetadataBuilder` object: as `SBState` plus the carried
metadata value. -/
structure MBState where
  schema : SchemaV
  metadata : Value
  config : Config
  outSchemaF : Option SchemaV

/-- A builder object on the heap: either stage of the chain builder. -/
inductive BObj where
  | sb (s : SBState)
  | mb (s : MBState)

/-- The store of allocated builder objects; a builder reference is an
index into it. -/
abbrev Store := List BObj

/-- Allocate a builder object, returning the extended store and the new
object's reference. -/
def allocB (st : Store) (o : BObj) : Store × Nat :=
  (st ++ [o], st.length)

/-- A built action.  In the source the returned closure reads `this` at
invocation time: the shared middleware array (which the client mutates
through `use`) and the builder object's own fields (`this.schema`,
`this._outputSchema`, `this.config`, and the carried metadata), so the
embedding takes the builder store and the client's current middleware
list as arguments of the invocation, not as build-time snapshots. -/
def BuiltAction := Store → List Middleware → Value → SafeActionResult × List Event

/-- The result of invoking an action whose builder id no longer addresses
a live object of the expected stage; unreachable in the typed source and
only present because the store is untyped. -/
def deadResult : SafeActionResult × List Event :=
  ({ data := none, serverError := none, fieldErrors := none,
     validationErrors := none }, [])

namespace SchemaBuilder

/-- `SchemaBuilder.outputSchema`: `this._outputSchema = outputSchema;
return this` — writes the addressed object's field in place and returns
the same reference. -/
def outputSchema (st : Store) (id : Nat) (os : SchemaV) : Store × Nat :=
  match st[id]? with
  | some (.sb s) => (st.set id (.sb { s with outSchemaF := some os }), id)
  | _ => (st, id)

/-- `SchemaBuilder.metadata`: `return new MetadataBuilder(this.schema,
metadata, this.middlewares, this.config, this._outputSchema)` — allocates
a fresh object snapshotting the current `_outputSchema`, leaving the
receiver untouched. -/
def metadata (st : Store) (id : Nat) (m : Value) : Store × Nat :=
  match st[id]? with
  | some (.sb s) => allocB st (.mb ⟨s.schema, m, s.config, s.outSchemaF⟩)
  | _ => (st, id)

/-- `SchemaBuilder.action`: `return this.createAction(handler, undefined)`
— the returned closure keeps the builder reference (`this`) and reads its
fields (`this.schema`, `this._outputSchema`, `this.config`) from the
store at each invocation; the action skips metadata, so every middleware
sees `undefined`. -/
def action (id : Nat) (handler : Handler) : BuiltAction :=
  fun st mws input =>
    match st[id]? with
    | some (.sb s) =>
      createAction s.schema s.outSchemaF Value.undef s.config handler mws input
    | _ => deadResult

end SchemaBuilder

namespace MetadataBuilder

/-- `MetadataBuilder.outputSchema`: `this._outputSchema = outputSchema;
return this` — writes the addressed object's field in place and returns
the same reference. -/
def outputSchema (st : Store) (id : Nat) (os : SchemaV) : Store × Nat :=
  match st[id]? with
  | some (.mb s) => (st.set id (.mb { s with outSchemaF := some os }), id)
  | _ => (st, id)

/-- `MetadataBuilder.action`: `return this.createAction(handler)` — the
returned closure keeps the builder reference (`this`) and reads its
fields (the schema, the mutable `this._outputSchema`, the carried
metadata and the config) from the store at each invocation. -/
def action (id : Nat) (handler : Handler) : BuiltAction :=
  fun st mws input =>
    match st[id]? with
    | some (.mb s) =>
      createAction s.schema s.outSchemaF s.metadata s.config handler mws input
    | _ => deadResult

end MetadataBuilder

/-- The optional configuration supplied to the client constructor:
`auth` sub-object fields, each possibly absent. -/
structure SuppliedAuth where
  enabled : Option Bool := none
  testUserId : Option String := none
  testUserEmail : Option String := none
  testAuthToken : Option String := none
  deriving Repr, DecidableEq

/-- The optional configuration supplied to the client constructor
(`MockSafeActionClientConfig`), each field possibly absent. -/
structure SuppliedConfig where
  defaultServerError : Option String := none
  isProduction : Option Bool := none
  auth : Option SuppliedAuth := none
  deriving Repr, DecidableEq

/-- JS `x || d` applied to an optional string: an absent value and the
falsy empty string both fall back to the default. -/
def jsOrDefault (v : Option String) (d : String) : String :=
  match v with
  | some s => if s = "" then d else s
  | none => d

namespace MockSafeActionClient

/-- The constructor of `MockSafeActionClient`: string fields merge with
`||` (so absent and empty-string both default), booleans with `??` (so a
supplied `false` is kept); `config?.auth?.f` is the double optional
chain. -/
def mkConfig (config : Option SuppliedConfig) : Config :=
  { defaultServerError :=
      jsOrDefault (config.bind (·.defaultServerError)) "Something went wrong"
    isProduction := (config.bind (·.isProduction)).getD false
    auth :=
      { enabled := ((config.bind (·.auth)).bind (·.enabled)).getD true
        testUserId :=
          jsOrDefault ((config.bind (·.auth)).bind (·.testUserId)) "test-user-id"
        testUserEmail :=
          jsOrDefault ((config.bind (·.auth)).bind (·.testUserEmail))
            "test@example.com"
        testAuthToken :=
          jsOrDefault ((config.bind (·.auth)).bind (·.testAuthToken))
            "test-token" } }

end MockSafeActionClient

/-- The client: the registered middleware list (the live array) and the
frozen configuration. -/
structure ClientState where
  middlewares : List Middleware
  config : Config

/-- `createMockSafeActionClient`: a fresh client with an empty middleware
registry and the merged configuration. -/
def createMockSafeActionClient (config : Option SuppliedConfig) : ClientState :=
  ⟨[], MockSafeActionClient.mkConfig config⟩

namespace MockSafeActionClient

/-- `MockSafeActionClient.use`: pushes the middleware onto the live
registry (the source mutates the array in place and returns `this`; the
updated client value models the mutated object). -/
def use (c : ClientState) (mw : Middleware) : ClientState :=
  { c with middlewares := c.middlewares ++ [mw] }

/-- `MockSafeActionClient.inputSchema`: allocates a fresh `SchemaBuilder`
capturing the schema and the client's config (the middleware array is
captured by reference, modelled at invocation time). -/
def inputSchema (c : ClientState) (st : Store) (schema : SchemaV) : Store × Nat :=
  allocB st (.sb ⟨schema, c.config, none⟩)

end MockSafeActionClient

/-- Invoke a built action through a client against the current builder
store: the action reads the client's middleware list and its builder
object's fields as they stand now (reference sharing), then runs on the
input. -/
def invoke (c : ClientState) (st : Store) (a : BuiltAction) (input : Value) :
    SafeActionResult × List Event :=
  a st c.middlewares input

/-! ### Lemmas about context lookup and merge -/

theorem alookup_append {α : Type} (xs ys : List (String × α)) (k : String) :
    alookup (xs ++ ys) k = (alookup xs k).orElse (fun _ => alookup ys k) := by
  induction xs with
  | nil => simp [alookup]
  | cons kv rest ih =>
    obtain ⟨k', v⟩ := kv
    by_cases h : k' = k <;> simp [alookup, h, ih]

theorem mergeCtx_nil_right (a : Ctx) : mergeCtx a [] = a := by
  unfold mergeCtx
  simp [alookup]

/-- Patch fields overwrite same-named context fields; fields the patch
does not mention keep their context value. -/
theorem alookup_mergeCtx (a b : Ctx) (k : String) :
    alookup (mergeCtx a b) k = (alookup b k).orElse (fun _ => alookup a k) := by
  unfold mergeCtx
  rw [alookup_append]
  have hmap : ∀ xs : Ctx,
      alookup (xs.map fun kv => (kv.1, (alookup b kv.1).getD kv.2)) k
        = (alookup xs k).map (fun v => (alookup b k).getD v) := by
    intro xs
    induction xs with
    | nil => simp [alookup]
    | cons kv rest ih =>
      obtain ⟨k', v⟩ := kv
      by_cases h : k' = k <;> simp [alookup, h, ih]
  rw [hmap]
  cases ha : alookup a k with
  | some v =>
    cases hb : alookup b k <;> rfl
  | none =>
    have hfilter : ∀ ys : Ctx,
        alookup (ys.filter fun kv => (alookup a kv.1).isNone) k = alookup ys k := by
      intro ys
      induction ys with
      | nil => simp
      | cons kv rest ih =>
        obtain ⟨k', v⟩ := kv
        by_cases h : k' = k
        · subst h
          simp [List.filter, alookup, ha, ih]
        · by_cases h2 : (alookup a k').isNone <;>
            simp [List.filter, h2, alookup, h, ih]
    rw [hfilter]
    cases hb : alookup b k <;> rfl

/-! ### Lemmas about the field-error mapping -/

theorem alookup_addMsg_self (m : ErrMap) (k msg : String) :
    alookup (addMsg m k msg) k = some ((alookup m k).getD [] ++ [msg]) := by
  induction m with
  | nil => simp [addMsg, alookup]
  | cons kv rest ih =>
    obtain ⟨k', msgs⟩ := kv
    by_cases h : k' = k <;> simp [addMsg, alookup, h, ih]

theorem alookup_addMsg_of_ne (m : ErrMap) (k msg k' : String) (h : k' ≠ k) :
    alookup (addMsg m k msg) k' = alookup m k' := by
  have h2 : k ≠ k' := Ne.symm h
  induction m with
  | nil => simp [addMsg, alookup, h2]
  | cons kv rest ih =>
    obtain ⟨k0, msgs⟩ := kv
    by_cases h0 : k0 = k
    · subst h0
      simp [addMsg, alookup, h2]
    · simp [addMsg, alookup, h0, ih]

theorem addMsg_keys (m : ErrMap) (k msg : String) :
    (addMsg m k msg).map Prod.fst =
      if k ∈ m.map Prod.fst then m.map Prod.fst else m.map Prod.fst ++ [k] := by
  induction m with
  | nil => simp [addMsg]
  | cons kv rest ih =>
    obtain ⟨k', msgs⟩ := kv
    by_cases h : k' = k
    · subst h
      simp [addMsg]
    · have h2 : ¬k = k' := fun hh => h hh.symm
      simp only [addMsg, if_neg h, List.map_cons, ih]
      by_cases hmem : k ∈ rest.map Prod.fst <;> simp [hmem, h2]

/-- First-occurrence deduplication of a key sequence, relative to a set of
keys already seen: the insertion order of a JS object populated by the
issue loop. -/
def dedupSeen (seen : List String) : List String → List String
  | [] => []
  | k :: ks => if k ∈ seen then dedupSeen seen ks else k :: dedupSeen (k :: seen) ks

theorem dedupSeen_congr (s1 s2 : List String) (l : List String)
    (h : ∀ x, x ∈ s1 ↔ x ∈ s2) : dedupSeen s1 l = dedupSeen s2 l := by
  induction l generalizing s1 s2 with
  | nil => rfl
  | cons k ks ih =>
    by_cases hk : k ∈ s1
    · simp [dedupSeen, hk, (h k).mp hk, ih s1 s2 h]
    · have hk2 : k ∉ s2 := fun hh => hk ((h k).mpr hh)
      simp only [dedupSeen, if_neg hk, if_neg hk2]
      refine congrArg _ (ih _ _ ?_)
      intro x
      simp [h x]

theorem buildFieldErrors_go_keys (issues : List Issue) (m : ErrMap) :
    ((issues.foldl (fun m i => addMsg m (issueKey i) i.message) m).map Prod.fst)
      = m.map Prod.fst ++ dedupSeen (m.map Prod.fst) (issues.map issueKey) := by
  induction issues generalizing m with
  | nil => simp [dedupSeen]
  | cons i rest ih =>
    simp only [List.foldl_cons, List.map_cons]
    rw [ih]
    by_cases hmem : issueKey i ∈ m.map Prod.fst
    · rw [addMsg_keys, if_pos hmem]
      simp [dedupSeen, hmem]
    · rw [addMsg_keys, if_neg hmem]
      simp only [dedupSeen, if_neg hmem]
      rw [dedupSeen_congr (m.map Prod.fst ++ [issueKey i]) (issueKey i :: m.map Prod.fst)
        _ (by intro x; simp; tauto)]
      simp

/-- Keys of the accumulated mapping: the issues' dot-joined paths, first
occurrence first. -/
theorem buildFieldErrors_keys (issues : List Issue) :
    (buildFieldErrors issues).map Prod.fst = dedupSeen [] (issues.map issueKey) := by
  have h := buildFieldErrors_go_keys issues []
  simpa [buildFieldErrors] using h

theorem buildFieldErrors_go_alookup (issues : List Issue) (m : ErrMap) (k : String) :
    alookup (issues.foldl (fun m i => addMsg m (issueKey i) i.message) m) k
      = (match alookup m k with
        | some cur => some (cur ++ ((issues.filter fun i => issueKey i = k).map Issue.message))
        | none =>
          if ((issues.filter fun i => issueKey i = k).map Issue.message) = []
          then none
          else some ((issues.filter fun i => issueKey i = k).map Issue.message)) := by
  induction issues generalizing m with
  | nil =>
    cases h : alookup m k <;> simp [h]
  | cons i rest ih =>
    simp only [List.foldl_cons]
    rw [ih]
    by_cases hk : issueKey i = k
    · subst hk
      rw [alookup_addMsg_self]
      cases h : alookup m (issueKey i) <;>
        simp [h, List.filter, Option.getD]
    · rw [alookup_addMsg_of_ne _ _ _ _ (Ne.symm hk)]
      simp [List.filter, hk]

/-- The message sequence stored under a key of the accumulated mapping:
exactly the messages of the issues whose dot-joined path is that key, in
issue order — and a key absent from every issue is absent from the map. -/
theorem buildFieldErrors_alookup (issues : List Issue) (k : String) :
    alookup (buildFieldErrors issues) k
      = (if ((issues.filter fun i => issueKey i = k).map Issue.message) = []
        then none
        else some ((issues.filter fun i => issueKey i = k).map Issue.message)) := by
  have h := buildFieldErrors_go_alookup issues [] k
  simpa [buildFieldErrors, alookup] using h

theorem buildFieldErrors_ne_nil (issues : List Issue) (h : issues ≠ []) :
    buildFieldErrors issues ≠ [] := by
  cases issues with
  | nil => exact absurd rfl h
  | cons i rest =>
    intro hcontra
    have hk := buildFieldErrors_keys (i :: rest)
    rw [hcontra] at hk
    simp only [List.map_nil, List.map_cons, dedupSeen] at hk
    simp at hk

/-! ### Lemmas about the middleware chain -/

/-- Every middleware call of one invocation receives the action's
metadata verbatim. -/
theorem middlewareChain_metadata_mem (md : Value) (h : Handler) (pi : Value) :
    ∀ (mws : List Middleware) (idx : Nat) (ctx : Ctx) (i : Nat) (args : MwArgs),
      Event.mwCalled i args ∈ (middlewareChain md h pi mws idx ctx).2 →
      args.metadata = md := by
  intro mws
  induction mws with
  | nil =>
    intro idx ctx i args hmem
    simp [middlewareChain] at hmem
  | cons mw rest ih =>
    intro idx ctx i args hmem
    cases hd : mw ⟨ctx, md⟩ with
    | next patch =>
      simp only [middlewareChain, hd, List.mem_cons] at hmem
      rcases hmem with heq | hmem
      · injection heq with h1 h2
        rw [h2]
      · exact ih _ _ _ _ hmem
    | ret v =>
      simp only [middlewareChain, hd, List.mem_singleton] at hmem
      injection hmem with h1 h2
      rw [h2]
    | throwE e =>
      simp only [middlewareChain, hd, List.mem_singleton] at hmem
      injection hmem with h1 h2
      rw [h2]

/-- The middlewares of a list all call `next` (with or without a patch). -/
def AllNext (mws : List Middleware) : Prop :=
  ∀ mw ∈ mws, ∀ args, ∃ p, mw args = MwDecision.next p

/-- The trace of a chain step on a non-empty middleware list begins with
the call record of the middleware at the current index, whatever that
middleware decides. -/
theorem middlewareChain_cons_head (md : Value) (h : Handler) (pi : Value)
    (mw : Middleware) (rest : List Middleware) (idx : Nat) (ctx : Ctx) :
    ∃ tr', (middlewareChain md h pi (mw :: rest) idx ctx).2
      = Event.mwCalled idx ⟨ctx, md⟩ :: tr' := by
  cases hd : mw ⟨ctx, md⟩ <;> simp only [middlewareChain, hd] <;> exact ⟨_, rfl⟩

/-- Skipping an all-`next` front segment: the chain on `pre ++ rest`
yields the outcome of the chain on `rest` started at the shifted index
with some accumulated context, and the extra leading trace events are all
middleware calls at indices below the shift. -/
theorem middlewareChain_append_allNext (md : Value) (h : Handler) (pi : Value)
    (rest : List Middleware) :
    ∀ pre : List Middleware, AllNext pre → ∀ (idx : Nat) (ctx : Ctx),
      ∃ (ctx' : Ctx) (tr : List Event),
        middlewareChain md h pi (pre ++ rest) idx ctx
          = ((middlewareChain md h pi rest (idx + pre.length) ctx').1,
              tr ++ (middlewareChain md h pi rest (idx + pre.length) ctx').2) ∧
        ∀ e ∈ tr, ∃ i args, e = Event.mwCalled i args ∧ i < idx + pre.length := by
  intro pre
  induction pre with
  | nil =>
    intro _ idx ctx
    exact ⟨ctx, [], by simp, by simp⟩
  | cons mw pre' ih =>
    intro hpre idx ctx
    obtain ⟨p, hp⟩ := hpre mw (List.mem_cons_self mw pre') ⟨ctx, md⟩
    have hpre' : AllNext pre' := fun m hm => hpre m (List.mem_cons_of_mem _ hm)
    obtain ⟨ctx', tr, heq, htr⟩ := ih hpre' (idx + 1) (mergeCtx ctx (p.getD []))
    have harith : idx + 1 + pre'.length = idx + (pre'.length + 1) := by omega
    rw [harith] at heq
    refine ⟨ctx', Event.mwCalled idx ⟨ctx, md⟩ :: tr, ?_, ?_⟩
    · show middlewareChain md h pi (mw :: (pre' ++ rest)) idx ctx = _
      simp only [middlewareChain, hp, heq, List.length_cons, List.cons_append]
    · intro e hmem
      rcases List.mem_cons.mp hmem with heq' | hmem'
      · exact ⟨idx, ⟨ctx, md⟩, heq', by simp only [List.length_cons]; omega⟩
      · obtain ⟨i, args, he, hi⟩ := htr e hmem'
        exact ⟨i, args, he, by simp only [List.length_cons]; omega⟩

/-! ### Envelope-shape lemmas -/

theorem presentCount_handleError (e : JsError) (cfg : Config) :
    presentCount (handleError e cfg) = 1 := by
  unfold handleError
  split <;> rfl

theorem presentCount_finishOutput (os : Option SchemaV) (cfg : Config) (v : Value) :
    presentCount (finishOutput os cfg v) = 1 := by
  cases os with
  | none => rfl
  | some s =>
    simp only [finishOutput, validateOutput]
    cases s v with
    | ok v' => rfl
    | zodError issues => rfl
    | thrown e => exact presentCount_handleError e cfg

/-- The spec's expected server-error message for a thrown error: the
configured default in production; otherwise the error's own message when
it carries one, else the default. -/
def specServerError (e : JsError) (cfg : Config) : String :=
  if cfg.isProduction then cfg.defaultServerError
  else
    match e.message with
    | some m => m
    | none => cfg.defaultServerError

theorem handleError_eq_spec (e : JsError) (cfg : Config) :
    handleError e cfg
      = { data := none, serverError := some (specServerError e cfg),
          fieldErrors := none, validationErrors := none } := by
  unfold handleError specServerError
  split <;> rfl

/-- Whatever the chain produced, the invocation reports the chain's own
trace. -/
theorem runChainAndFinish_trace (outSchema : Option SchemaV) (md : Value) (cfg : Config)
    (handler : Handler) (mws : List Middleware) (parsed : Value) :
    (runChainAndFinish outSchema md cfg handler mws parsed).2
      = (middlewareChain md handler parsed mws 0 []).2 := by
  unfold runChainAndFinish
  cases h : middlewareChain md handler parsed mws 0 [] with
  | mk res tr => cases res <;> rfl

/-- The trace of an invocation: empty when input validation did not
succeed, the chain's trace otherwise. -/
theorem createAction_trace (schema : SchemaV) (outSchema : Option SchemaV) (md : Value)
    (cfg : Config) (handler : Handler) (mws : List Middleware) (input : Value) :
    (createAction schema outSchema md cfg handler mws input).2 = [] ∨
    ∃ parsed, schema input = ParseOutcome.ok parsed ∧
      (createAction schema outSchema md cfg handler mws input).2
        = (middlewareChain md handler parsed mws 0 []).2 := by
  unfold createAction validateInput
  cases h : schema input with
  | ok parsed =>
    exact Or.inr ⟨parsed, rfl, runChainAndFinish_trace outSchema md cfg handler mws parsed⟩
  | zodError issues => exact Or.inl rfl
  | thrown e => exact Or.inl rfl

/-! ### Claim theorems -/

/-- C1: for every invocation of a built action, the returned result
envelope has exactly one of its four slots (`data`, `serverError`,
`fieldErrors`, `validationErrors`) present — never more than one and
never none. -/
theorem claim_C1_exactly_one_slot (schema : SchemaV) (outSchema : Option SchemaV)
    (md : Value) (cfg : Config) (handler : Handler) (mws : List Middleware)
    (input : Value) :
    presentCount (createAction schema outSchema md cfg handler mws input).1 = 1 := by
  unfold createAction validateInput
  cases hsi : schema input with
  | ok parsed =>
    show presentCount (runChainAndFinish outSchema md cfg handler mws parsed).1 = 1
    unfold runChainAndFinish
    cases hchain : middlewareChain md handler parsed mws 0 [] with
    | mk res tr =>
      cases res with
      | error e => exact presentCount_handleError e cfg
      | ok v => exact presentCount_finishOutput outSchema cfg v
  | zodError issues => rfl
  | thrown e => exact presentCount_handleError e cfg

/-- C2: an error thrown by any middleware or by the handler yields a
result whose `serverError` is the thrown message outside production
(default when the error carries no message) and the configured default in
production, wherever in the chain the throw occurred; `data` is absent. -/
theorem claim_C2_server_error (schema : SchemaV) (outSchema : Option SchemaV)
    (md : Value) (cfg : Config) (handler : Handler) (input parsed : Value)
    (e : JsError) (hin : schema input = ParseOutcome.ok parsed) :
    (∀ (pre post : List Middleware) (thrower : Middleware), AllNext pre →
      (∀ args, thrower args = MwDecision.throwE e) →
      (createAction schema outSchema md cfg handler (pre ++ thrower :: post) input).1
        = { data := none, serverError := some (specServerError e cfg),
            fieldErrors := none, validationErrors := none }) ∧
    (∀ mws : List Middleware, AllNext mws →
      (∀ pi ctx, handler pi ctx = Except.error e) →
      (createAction schema outSchema md cfg handler mws input).1
        = { data := none, serverError := some (specServerError e cfg),
            fieldErrors := none, validationErrors := none }) := by
  constructor
  · intro pre post thrower hpre hthrow
    obtain ⟨ctx', tr, heq, -⟩ :=
      middlewareChain_append_allNext md handler parsed (thrower :: post) pre hpre 0 []
    have hX : middlewareChain md handler parsed (thrower :: post) (0 + pre.length) ctx'
        = (Except.error e, [Event.mwCalled (0 + pre.length) ⟨ctx', md⟩]) := by
      simp only [middlewareChain, hthrow ⟨ctx', md⟩]
    rw [hX] at heq
    unfold createAction validateInput
    rw [hin]
    show (runChainAndFinish outSchema md cfg handler (pre ++ thrower :: post) parsed).1 = _
    unfold runChainAndFinish
    rw [heq]
    exact handleError_eq_spec e cfg
  · intro mws hall hthrow
    obtain ⟨ctx', tr, heq, -⟩ :=
      middlewareChain_append_allNext md handler parsed [] mws hall 0 []
    rw [List.append_nil] at heq
    have hX : middlewareChain md handler parsed [] (0 + mws.length) ctx'
        = (Except.error e, [Event.handlerCalled parsed ctx']) := by
      simp only [middlewareChain, hthrow parsed ctx']
    rw [hX] at heq
    unfold createAction validateInput
    rw [hin]
    show (runChainAndFinish outSchema md cfg handler mws parsed).1 = _
    unfold runChainAndFinish
    rw [heq]
    exact handleError_eq_spec e cfg

/-- C3: an input failing schema validation returns immediately — the
trace is empty, so no middleware and no handler ran — with a result that
is exactly the `fieldErrors` wrap of the accumulated issue mapping (so
`data` is absent), the mapping is non-empty, its keys are the dot-joined
issue paths in first-seen order, and each key holds the messages of its
issues in order. -/
theorem claim_C3_field_errors (schema : SchemaV) (outSchema : Option SchemaV)
    (md : Value) (cfg : Config) (handler : Handler) (mws : List Middleware)
    (input : Value) (issues : List Issue)
    (hin : schema input = ParseOutcome.zodError issues) (hne : issues ≠ []) :
    createAction schema outSchema md cfg handler mws input
        = (wrapValidationErrors (buildFieldErrors issues), []) ∧
    buildFieldErrors issues ≠ [] ∧
    (buildFieldErrors issues).map Prod.fst = dedupSeen [] (issues.map issueKey) ∧
    (∀ k, alookup (buildFieldErrors issues) k
      = if ((issues.filter fun i => issueKey i = k).map Issue.message) = []
        then none
        else some ((issues.filter fun i => issueKey i = k).map Issue.message)) := by
  refine ⟨?_, buildFieldErrors_ne_nil issues hne, buildFieldErrors_keys issues,
    fun k => buildFieldErrors_alookup issues k⟩
  unfold createAction validateInput
  rw [hin]

/-! ### Concrete fixtures used by the witnesses and counterexamples -/

/-- A pass-everything input schema (parses any value to itself). -/
def wSchema : SchemaV := fun v => ParseOutcome.ok v

/-- A schema that rejects everything with two issues, like
`z.object(\x7bname: z.string().min(1), age: z.number().positive()\x7d)` on
`\x7bname: "", age: -1\x7d`. -/
def wFailSchema : SchemaV := fun _ =>
  ParseOutcome.zodError [⟨["name"], "Too small"⟩, ⟨["age"], "Expected positive"⟩]

/-- A concrete thrown error. -/
def wErr : JsError := ⟨some "Middleware failed"⟩

/-- A middleware that always throws `wErr`. -/
def wThrower : Middleware := fun _ => MwDecision.throwE wErr

/-- A middleware that calls `next()` with no patch. -/
def wNextMw : Middleware := fun _ => MwDecision.next none

/-- A handler echoing its parsed input. -/
def wHandler : Handler := fun pi _ => Except.ok pi

/-- A handler that always throws `wErr`. -/
def wHandlerThrow : Handler := fun _ _ => Except.error wErr

/-- The defaulted configuration. -/
def wCfg : Config := MockSafeActionClient.mkConfig none

theorem claim_C2_witness :
    (createAction wSchema none Value.undef wCfg wHandler [wNextMw, wThrower]
        (Value.num 1)).1
      = { data := none, serverError := some "Middleware failed", fieldErrors := none,
          validationErrors := none } ∧
    (createAction wSchema none Value.undef wCfg wHandlerThrow [wNextMw]
        (Value.num 1)).1
      = { data := none, serverError := some "Middleware failed", fieldErrors := none,
          validationErrors := none } := by
  have hall : AllNext [wNextMw] := by
    intro mw hmw args
    rw [List.mem_singleton] at hmw
    subst hmw
    exact ⟨none, rfl⟩
  have h1 := (claim_C2_server_error wSchema none Value.undef wCfg wHandler
    (Value.num 1) (Value.num 1) wErr rfl).1 [wNextMw] [] wThrower hall (fun _ => rfl)
  have h2 := (claim_C2_server_error wSchema none Value.undef wCfg wHandlerThrow
    (Value.num 1) (Value.num 1) wErr rfl).2 [wNextMw] hall (fun _ _ => rfl)
  exact ⟨h1, h2⟩

theorem claim_C3_witness :
    (createAction wFailSchema none Value.undef wCfg wHandler [wNextMw]
        (Value.num 1)).1.fieldErrors
      = some [("name", ["Too small"]), ("age", ["Expected positive"])] ∧
    (createAction wFailSchema none Value.undef wCfg wHandler [wNextMw]
        (Value.num 1)).1.data = none ∧
    (createAction wFailSchema none Value.undef wCfg wHandler [wNextMw]
        (Value.num 1)).2 = [] := by
  have h := claim_C3_field_errors wFailSchema none Value.undef wCfg wHandler [wNextMw]
    (Value.num 1) [⟨["name"], "Too small"⟩, ⟨["age"], "Expected positive"⟩] rfl
    (by decide)
  refine ⟨?_, ?_, ?_⟩
  · rw [h.1]
    decide
  · rw [h.1]
    rfl
  · rw [h.1]

/-- The spec's example middleware 1: calls `next` contributing the
context patch with `step1` set. -/
def mwStep1 : Middleware := fun _ =>
  MwDecision.next (some [("step1", Value.str "done")])

/-- The spec's example middleware 2: calls `next` with the patch
`...ctx, step2: "done"` (its current context spread-extended). -/
def mwStep2 : Middleware := fun args =>
  MwDecision.next (some (mergeCtx args.ctx [("step2", Value.str "done")]))

/-- C4: the context starts empty; `next` with a patch resumes the chain
at the next index with the context shallow-merged with the patch (patch
fields overwrite same-named fields, other fields are kept); `next`
without a patch resumes with the context unchanged; and on the spec's
two-middleware example the handler observes the cumulative merged
context holding both contributions. -/
theorem claim_C4_context_merge (md : Value) (handler : Handler) (pi : Value) :
    (∀ (mw : Middleware) (rest : List Middleware) (idx : Nat) (ctx p : Ctx),
      mw ⟨ctx, md⟩ = MwDecision.next (some p) →
      middlewareChain md handler pi (mw :: rest) idx ctx
        = ((middlewareChain md handler pi rest (idx + 1) (mergeCtx ctx p)).1,
            Event.mwCalled idx ⟨ctx, md⟩
              :: (middlewareChain md handler pi rest (idx + 1) (mergeCtx ctx p)).2)) ∧
    (∀ (a b : Ctx) (k : String),
      alookup (mergeCtx a b) k = (alookup b k).orElse (fun _ => alookup a k)) ∧
    (∀ (mw : Middleware) (rest : List Middleware) (idx : Nat) (ctx : Ctx),
      mw ⟨ctx, md⟩ = MwDecision.next none →
      middlewareChain md handler pi (mw :: rest) idx ctx
        = ((middlewareChain md handler pi rest (idx + 1) ctx).1,
            Event.mwCalled idx ⟨ctx, md⟩
              :: (middlewareChain md handler pi rest (idx + 1) ctx).2)) ∧
    (∀ (schema : SchemaV) (outSchema : Option SchemaV) (cfg : Config) (input : Value),
      schema input = ParseOutcome.ok pi →
      (createAction schema outSchema md cfg handler [mwStep1, mwStep2] input).2
        = [Event.mwCalled 0 ⟨[], md⟩,
           Event.mwCalled 1 ⟨[("step1", Value.str "done")], md⟩,
           Event.handlerCalled pi
             [("step1", Value.str "done"), ("step2", Value.str "done")]]) := by
  refine ⟨?_, alookup_mergeCtx, ?_, ?_⟩
  · intro mw rest idx ctx p hmw
    simp only [middlewareChain, hmw, Option.getD_some]
  · intro mw rest idx ctx hmw
    simp only [middlewareChain, hmw, Option.getD_none, mergeCtx_nil_right]
  · intro schema outSchema cfg input hin
    unfold createAction validateInput
    rw [hin]
    show (runChainAndFinish outSchema md cfg handler [mwStep1, mwStep2] pi).2 = _
    rw [runChainAndFinish_trace]
    rfl

/-- C5: a middleware that returns without calling `next` ends the chain —
the handler and every later middleware never run (the trace has no
handler event and no middleware index past the short-circuiting one), and
its returned value becomes the handler result, fed to output validation
and success wrapping as usual. -/
theorem claim_C5_short_circuit (schema : SchemaV) (outSchema : Option SchemaV)
    (md : Value) (cfg : Config) (handler : Handler) (input parsed : Value)
    (pre post : List Middleware) (mwS : Middleware) (v : Value)
    (hin : schema input = ParseOutcome.ok parsed) (hpre : AllNext pre)
    (hret : ∀ args, mwS args = MwDecision.ret v) :
    (createAction schema outSchema md cfg handler (pre ++ mwS :: post) input).1
        = finishOutput outSchema cfg v ∧
    (∀ e ∈ (createAction schema outSchema md cfg handler (pre ++ mwS :: post) input).2,
      (∀ pi ctx, e ≠ Event.handlerCalled pi ctx) ∧
      (∀ i args, e = Event.mwCalled i args → i ≤ pre.length)) := by
  obtain ⟨ctx', tr, heq, htr⟩ :=
    middlewareChain_append_allNext md handler parsed (mwS :: post) pre hpre 0 []
  have hX : middlewareChain md handler parsed (mwS :: post) (0 + pre.length) ctx'
      = (Except.ok v, [Event.mwCalled (0 + pre.length) ⟨ctx', md⟩]) := by
    simp only [middlewareChain, hret ⟨ctx', md⟩]
  rw [hX] at heq
  have hca : createAction schema outSchema md cfg handler (pre ++ mwS :: post) input
      = (finishOutput outSchema cfg v,
          tr ++ [Event.mwCalled (0 + pre.length) ⟨ctx', md⟩]) := by
    unfold createAction validateInput
    rw [hin]
    show runChainAndFinish outSchema md cfg handler (pre ++ mwS :: post) parsed = _
    unfold runChainAndFinish
    rw [heq]
  rw [hca]
  refine ⟨rfl, ?_⟩
  intro e hmem
  rcases List.mem_append.mp hmem with hm | hm
  · obtain ⟨i, args, he, hi⟩ := htr e hm
    subst he
    exact ⟨fun pi ctx h => Event.noConfusion h,
      fun i' args' h => by injection h with h1 h2; omega⟩
  · rw [List.mem_singleton] at hm
    subst hm
    exact ⟨fun pi ctx h => Event.noConfusion h,
      fun i' args' h => by injection h with h1 h2; omega⟩

/-- A middleware that short-circuits with a fixed value. -/
def wRetMw : Middleware := fun _ => MwDecision.ret (Value.str "early")

theorem claim_C4_witness :
    middlewareChain Value.undef wHandler (Value.num 1) (mwStep1 :: [])
        0 [("x", Value.num 7)]
      = ((middlewareChain Value.undef wHandler (Value.num 1) [] 1
            (mergeCtx [("x", Value.num 7)] [("step1", Value.str "done")])).1,
          Event.mwCalled 0 ⟨[("x", Value.num 7)], Value.undef⟩
            :: (middlewareChain Value.undef wHandler (Value.num 1) [] 1
                  (mergeCtx [("x", Value.num 7)] [("step1", Value.str "done")])).2) ∧
    alookup (mergeCtx [("a", Value.num 1), ("b", Value.num 2)] [("b", Value.num 3)]) "b"
      = some (Value.num 3) ∧
    (createAction wSchema none Value.undef wCfg wHandler [mwStep1, mwStep2]
        (Value.num 1)).2
      = [Event.mwCalled 0 ⟨[], Value.undef⟩,
         Event.mwCalled 1 ⟨[("step1", Value.str "done")], Value.undef⟩,
         Event.handlerCalled (Value.num 1)
           [("step1", Value.str "done"), ("step2", Value.str "done")]] := by
  have h := claim_C4_context_merge Value.undef wHandler (Value.num 1)
  refine ⟨h.1 mwStep1 [] 0 [("x", Value.num 7)] [("step1", Value.str "done")] rfl, ?_, ?_⟩
  · rw [h.2.1 [("a", Value.num 1), ("b", Value.num 2)] [("b", Value.num 3)] "b"]
    decide
  · exact h.2.2.2 wSchema none wCfg (Value.num 1) rfl

theorem claim_C5_witness :
    (createAction wSchema none Value.undef wCfg wHandler [wNextMw, wRetMw, wThrower]
        (Value.num 3)).1
      = wrapResult (Value.str "early") ∧
    (∀ e ∈ (createAction wSchema none Value.undef wCfg wHandler
          [wNextMw, wRetMw, wThrower] (Value.num 3)).2,
      ∀ pi ctx, e ≠ Event.handlerCalled pi ctx) := by
  have hall : AllNext [wNextMw] := by
    intro mw hmw args
    rw [List.mem_singleton] at hmw
    subst hmw
    exact ⟨none, rfl⟩
  have h := claim_C5_short_circuit wSchema none Value.undef wCfg wHandler
    (Value.num 3) (Value.num 3) [wNextMw] [wThrower] wRetMw (Value.str "early")
    rfl hall (fun _ => rfl)
  exact ⟨h.1, fun e hm => (h.2 e hm).1⟩

/-! ### Store computation lemmas for the builder stage -/

theorem set_append_length {α : Type} (l : List α) (a b : α) :
    (l ++ [a]).set l.length b = l ++ [b] := by
  rw [List.set_append_right _ _ (Nat.le_refl _)]
  simp

theorem sbOutputSchema_alloc (st : Store) (s : SBState) (os : SchemaV) :
    SchemaBuilder.outputSchema (st ++ [BObj.sb s]) st.length os
      = (st ++ [BObj.sb ⟨s.schema, s.config, some os⟩], st.length) := by
  unfold SchemaBuilder.outputSchema
  simp only [List.getElem?_concat_length]
  rw [set_append_length]

theorem sbMetadata_alloc (st : Store) (s : SBState) (m : Value) :
    SchemaBuilder.metadata (st ++ [BObj.sb s]) st.length m
      = ((st ++ [BObj.sb s]) ++ [BObj.mb ⟨s.schema, m, s.config, s.outSchemaF⟩],
          (st ++ [BObj.sb s]).length) := by
  unfold SchemaBuilder.metadata allocB
  simp only [List.getElem?_concat_length]

theorem mbOutputSchema_alloc (st : Store) (s : MBState) (os : SchemaV) :
    MetadataBuilder.outputSchema (st ++ [BObj.mb s]) st.length os
      = (st ++ [BObj.mb ⟨s.schema, s.metadata, s.config, some os⟩], st.length) := by
  unfold MetadataBuilder.outputSchema
  simp only [List.getElem?_concat_length]
  rw [set_append_length]

theorem mbAction_alloc (st : Store) (s : MBState) (handler : Handler) :
    MetadataBuilder.action st.length handler (st ++ [BObj.mb s])
      = fun mws input =>
          createAction s.schema s.outSchemaF s.metadata s.config handler mws input := by
  funext mws input
  simp only [MetadataBuilder.action, List.getElem?_concat_length]

theorem sbAction_alloc (st : Store) (s : SBState) (handler : Handler) :
    SchemaBuilder.action st.length handler (st ++ [BObj.sb s])
      = fun mws input =>
          createAction s.schema s.outSchemaF Value.undef s.config handler mws input := by
  funext mws input
  simp only [SchemaBuilder.action, List.getElem?_concat_length]

/-- The fluent program
`client.inputSchema(s).outputSchema(o).metadata(m).action(h)`, run
against a builder store; the resulting function is the built action read
against the store the program left behind (no further builder mutation
happens in this usage). -/
def buildOutputThenMetadata (c : ClientState) (st : Store) (schema os : SchemaV)
    (m : Value) (handler : Handler) :
    List Middleware → Value → SafeActionResult × List Event :=
  match MockSafeActionClient.inputSchema c st schema with
  | (st1, id1) =>
    match SchemaBuilder.outputSchema st1 id1 os with
    | (st2, id2) =>
      match SchemaBuilder.metadata st2 id2 m with
      | (st3, id3) => MetadataBuilder.action id3 handler st3

/-- The fluent program
`client.inputSchema(s).metadata(m).outputSchema(o).action(h)`, run
against a builder store; the resulting function is the built action read
against the store the program left behind. -/
def buildMetadataThenOutput (c : ClientState) (st : Store) (schema os : SchemaV)
    (m : Value) (handler : Handler) :
    List Middleware → Value → SafeActionResult × List Event :=
  match MockSafeActionClient.inputSchema c st schema with
  | (st1, id1) =>
    match SchemaBuilder.metadata st1 id1 m with
    | (st2, id2) =>
      match MetadataBuilder.outputSchema st2 id2 os with
      | (st3, id3) => MetadataBuilder.action id3 handler st3

theorem build_otm_spec (c : ClientState) (st : Store) (schema os : SchemaV) (m : Value)
    (handler : Handler) :
    buildOutputThenMetadata c st schema os m handler
      = fun mws input => createAction schema (some os) m c.config handler mws input := by
  unfold buildOutputThenMetadata MockSafeActionClient.inputSchema allocB
  dsimp only
  rw [sbOutputSchema_alloc]
  dsimp only
  rw [sbMetadata_alloc]
  dsimp only
  rw [mbAction_alloc]

theorem build_mto_spec (c : ClientState) (st : Store) (schema os : SchemaV) (m : Value)
    (handler : Handler) :
    buildMetadataThenOutput c st schema os m handler
      = fun mws input => createAction schema (some os) m c.config handler mws input := by
  unfold buildMetadataThenOutput MockSafeActionClient.inputSchema allocB
  dsimp only
  rw [sbMetadata_alloc]
  dsimp only
  rw [mbOutputSchema_alloc]
  dsimp only
  rw [mbAction_alloc]

/-- C6: calling `.outputSchema` before `.metadata` and after `.metadata`
produce the same built action; in both orders a handler result passing
the output schema yields `data` equal to the schema-parsed value (not the
raw result), and a failing one yields `validationErrors` keyed by
dot-joined paths with `data` absent. -/
theorem claim_C6_order_independent (c : ClientState) (st : Store) (schema os : SchemaV)
    (m : Value) (handler : Handler) :
    buildOutputThenMetadata c st schema os m handler
        = buildMetadataThenOutput c st schema os m handler ∧
    (∀ (mws : List Middleware) (input : Value),
      buildOutputThenMetadata c st schema os m handler mws input
        = createAction schema (some os) m c.config handler mws input) ∧
    (∀ (input parsed v v' : Value), schema input = ParseOutcome.ok parsed →
      handler parsed [] = Except.ok v → os v = ParseOutcome.ok v' →
      (buildOutputThenMetadata c st schema os m handler [] input).1 = wrapResult v' ∧
      (buildMetadataThenOutput c st schema os m handler [] input).1 = wrapResult v') ∧
    (∀ (input parsed v : Value) (issues : List Issue),
      schema input = ParseOutcome.ok parsed →
      handler parsed [] = Except.ok v → os v = ParseOutcome.zodError issues →
      (buildOutputThenMetadata c st schema os m handler [] input).1
          = { data := none, serverError := none, fieldErrors := none,
              validationErrors := some (buildFieldErrors issues) } ∧
      (buildMetadataThenOutput c st schema os m handler [] input).1
          = { data := none, serverError := none, fieldErrors := none,
              validationErrors := some (buildFieldErrors issues) }) := by
  have hA := build_otm_spec c st schema os m handler
  have hB := build_mto_spec c st schema os m handler
  have hrun : ∀ (input parsed v : Value), schema input = ParseOutcome.ok parsed →
      handler parsed [] = Except.ok v →
      createAction schema (some os) m c.config handler [] input
        = (finishOutput (some os) c.config v, [Event.handlerCalled parsed []]) := by
    intro input parsed v hin hh
    have hchain : middlewareChain m handler parsed [] 0 []
        = (Except.ok v, [Event.handlerCalled parsed []]) := by
      simp only [middlewareChain, hh]
    unfold createAction validateInput
    rw [hin]
    show runChainAndFinish (some os) m c.config handler [] parsed = _
    unfold runChainAndFinish
    rw [hchain]
  refine ⟨hA.trans hB.symm, fun mws input => by rw [hA], ?_, ?_⟩
  · intro input parsed v v' hin hh hos
    have hfin : finishOutput (some os) c.config v = wrapResult v' := by
      unfold finishOutput
      dsimp only
      unfold validateOutput
      rw [hos]
    rw [hA, hB]
    dsimp only
    rw [hrun input parsed v hin hh, hfin]
    exact ⟨rfl, rfl⟩
  · intro input parsed v issues hin hh hos
    have hfin : finishOutput (some os) c.config v
        = { data := none, serverError := none, fieldErrors := none,
            validationErrors := some (buildFieldErrors issues) } := by
      unfold finishOutput
      dsimp only
      unfold validateOutput
      rw [hos]
    rw [hA, hB]
    dsimp only
    rw [hrun input parsed v hin hh, hfin]
    exact ⟨rfl, rfl⟩

/-- An output schema that coerces any number to a fixed string (so the
validated value differs from the raw one) and rejects anything else with
a nested-path issue. -/
def wOutSchema : SchemaV := fun v =>
  match v with
  | Value.num _ => ParseOutcome.ok (Value.str "validated")
  | _ => ParseOutcome.zodError [⟨["data", "id"], "Required"⟩]

/-- A handler returning a number (accepted by `wOutSchema`). -/
def wHandlerNum : Handler := fun _ _ => Except.ok (Value.num 3)

/-- A handler returning a string (rejected by `wOutSchema`). -/
def wHandlerBad : Handler := fun _ _ => Except.ok (Value.str "oops")

/-- A fresh default client. -/
def wClient : ClientState := createMockSafeActionClient none

theorem claim_C6_witness :
    buildOutputThenMetadata wClient [] wSchema wOutSchema (Value.str "meta") wHandlerNum
        = buildMetadataThenOutput wClient [] wSchema wOutSchema (Value.str "meta")
            wHandlerNum ∧
    (buildOutputThenMetadata wClient [] wSchema wOutSchema (Value.str "meta")
        wHandlerNum [] (Value.num 0)).1
      = wrapResult (Value.str "validated") ∧
    (buildMetadataThenOutput wClient [] wSchema wOutSchema (Value.str "meta")
        wHandlerBad [] (Value.num 0)).1
      = { data := none, serverError := none, fieldErrors := none,
          validationErrors := some [("data.id", ["Required"])] } := by
  have h1 := claim_C6_order_independent wClient [] wSchema wOutSchema (Value.str "meta")
    wHandlerNum
  have h2 := claim_C6_order_independent wClient [] wSchema wOutSchema (Value.str "meta")
    wHandlerBad
  refine ⟨h1.1, ?_, ?_⟩
  · exact (h1.2.2.1 (Value.num 0) (Value.num 0) (Value.num 3) (Value.str "validated")
      rfl rfl rfl).1
  · have h := (h2.2.2.2 (Value.num 0) (Value.num 0) (Value.str "oops")
      [⟨["data", "id"], "Required"⟩] rfl rfl rfl).2
    rw [h]
    decide

/-- A one-object store holding a fresh `SchemaBuilder`. -/
def exStore : Store := [BObj.sb ⟨wSchema, wCfg, none⟩]

/-- C7 fails on the code: `outputSchema` does not return a new builder
value leaving its receiver unmodified — it returns the very same builder
reference after mutating the stored object's `_outputSchema` field in
place. -/
theorem claim_C7_counterexample :
    (SchemaBuilder.outputSchema exStore 0 wFailSchema).2 = 0 ∧
    (SchemaBuilder.outputSchema exStore 0 wFailSchema).1[0]? ≠ exStore[0]? := by
  refine ⟨rfl, ?_⟩
  intro h
  have hL : (SchemaBuilder.outputSchema exStore 0 wFailSchema).1[0]?
      = some (BObj.sb ⟨wSchema, wCfg, some wFailSchema⟩) := rfl
  have hR : exStore[0]? = some (BObj.sb ⟨wSchema, wCfg, none⟩) := rfl
  have h2 := hL.symm.trans (h.trans hR)
  injection h2 with h3
  injection h3 with h4
  injection h4 with h5 h6 h7
  exact Option.noConfusion h7

/-- C7 amended: `.metadata` returns a new builder object and leaves every
existing object (the receiver included) unmodified; `.outputSchema` — on
either builder stage — records the schema by mutating the receiver's
`_outputSchema` field in place and returns that same builder rather than
a new one; builder operations never touch other builder objects, so
earlier stages are unaffected by operations on later-derived builders;
and the configuration is not frozen at `.action` time — the built action
reads the builder's fields at each invocation, so an `outputSchema` call
made after `.action` changes the already-built action's behavior. -/
theorem claim_C7_amended_builder_ops (st : Store) (id : Nat) (s : SBState) (m : Value)
    (os : SchemaV) (hobj : st[id]? = some (BObj.sb s)) :
    ((SchemaBuilder.metadata st id m).2 = st.length ∧
      (SchemaBuilder.metadata st id m).2 ≠ id ∧
      (∀ j, j < st.length → (SchemaBuilder.metadata st id m).1[j]? = st[j]?)) ∧
    ((SchemaBuilder.outputSchema st id os).2 = id ∧
      (SchemaBuilder.outputSchema st id os).1[id]?
        = some (BObj.sb ⟨s.schema, s.config, some os⟩) ∧
      (∀ j, j ≠ id → (SchemaBuilder.outputSchema st id os).1[j]? = st[j]?)) ∧
    (∀ (id2 : Nat) (s2 : MBState), st[id2]? = some (BObj.mb s2) →
      (MetadataBuilder.outputSchema st id2 os).2 = id2 ∧
      (MetadataBuilder.outputSchema st id2 os).1[id2]?
        = some (BObj.mb ⟨s2.schema, s2.metadata, s2.config, some os⟩) ∧
      (∀ j, j ≠ id2 → (MetadataBuilder.outputSchema st id2 os).1[j]? = st[j]?)) ∧
    (∀ (handler : Handler) (mws : List Middleware) (input : Value),
      SchemaBuilder.action id handler st mws input
        = createAction s.schema s.outSchemaF Value.undef s.config handler mws input ∧
      SchemaBuilder.action id handler (SchemaBuilder.outputSchema st id os).1 mws input
        = createAction s.schema (some os) Value.undef s.config handler mws input) ∧
    (∀ (id2 : Nat) (s2 : MBState), st[id2]? = some (BObj.mb s2) →
      ∀ (handler : Handler) (mws : List Middleware) (input : Value),
        MetadataBuilder.action id2 handler
            (MetadataBuilder.outputSchema st id2 os).1 mws input
          = createAction s2.schema (some os) s2.metadata s2.config handler
              mws input) := by
  have hid : id < st.length := (List.getElem?_eq_some_iff.mp hobj).1
  have hmeta : SchemaBuilder.metadata st id m
      = (st ++ [BObj.mb ⟨s.schema, m, s.config, s.outSchemaF⟩], st.length) := by
    unfold SchemaBuilder.metadata allocB
    rw [hobj]
  have hout : SchemaBuilder.outputSchema st id os
      = (st.set id (BObj.sb ⟨s.schema, s.config, some os⟩), id) := by
    unfold SchemaBuilder.outputSchema
    rw [hobj]
  refine ⟨⟨by rw [hmeta], ?_, ?_⟩, ⟨by rw [hout], ?_, ?_⟩, ?_, ?_, ?_⟩
  · rw [hmeta]
    show st.length ≠ id
    omega
  · intro j hj
    rw [hmeta]
    exact List.getElem?_append_left hj
  · rw [hout]
    exact List.getElem?_set_self hid
  · intro j hj
    rw [hout]
    exact List.getElem?_set_ne (fun hh => hj hh.symm)
  · intro id2 s2 hobj2
    have hid2 : id2 < st.length := (List.getElem?_eq_some_iff.mp hobj2).1
    have hout2 : MetadataBuilder.outputSchema st id2 os
        = (st.set id2 (BObj.mb ⟨s2.schema, s2.metadata, s2.config, some os⟩), id2) := by
      unfold MetadataBuilder.outputSchema
      rw [hobj2]
    refine ⟨by rw [hout2], ?_, ?_⟩
    · rw [hout2]
      exact List.getElem?_set_self hid2
    · intro j hj
      rw [hout2]
      exact List.getElem?_set_ne (fun hh => hj hh.symm)
  · intro handler mws input
    refine ⟨?_, ?_⟩
    · simp only [SchemaBuilder.action, hobj]
    · rw [hout]
      dsimp only
      simp only [SchemaBuilder.action, List.getElem?_set_self hid]
  · intro id2 s2 hobj2 handler mws input
    have hid2 : id2 < st.length := (List.getElem?_eq_some_iff.mp hobj2).1
    have hout2 : MetadataBuilder.outputSchema st id2 os
        = (st.set id2 (BObj.mb ⟨s2.schema, s2.metadata, s2.config, some os⟩), id2) := by
      unfold MetadataBuilder.outputSchema
      rw [hobj2]
    rw [hout2]
    dsimp only
    simp only [MetadataBuilder.action, List.getElem?_set_self hid2]

/-- A two-object store holding a fresh `SchemaBuilder` and a
`MetadataBuilder` with no output schema yet. -/
def exStore2 : Store :=
  [BObj.sb ⟨wSchema, wCfg, none⟩, BObj.mb ⟨wSchema, Value.str "meta", wCfg, none⟩]

theorem claim_C7_witness :
    (SchemaBuilder.metadata exStore2 0 (Value.str "m")).2 = 2 ∧
    (SchemaBuilder.metadata exStore2 0 (Value.str "m")).2 ≠ 0 ∧
    (SchemaBuilder.metadata exStore2 0 (Value.str "m")).1[0]? = exStore2[0]? ∧
    (SchemaBuilder.outputSchema exStore2 0 wFailSchema).1[0]?
      = some (BObj.sb ⟨wSchema, wCfg, some wFailSchema⟩) ∧
    (MetadataBuilder.outputSchema exStore2 1 wFailSchema).2 = 1 ∧
    (MetadataBuilder.outputSchema exStore2 1 wFailSchema).1[1]?
      = some (BObj.mb ⟨wSchema, Value.str "meta", wCfg, some wFailSchema⟩) ∧
    SchemaBuilder.action 0 wHandler (SchemaBuilder.outputSchema exStore2 0 wFailSchema).1
        [] (Value.num 4)
      = createAction wSchema (some wFailSchema) Value.undef wCfg wHandler []
          (Value.num 4) ∧
    MetadataBuilder.action 1 wHandler
        (MetadataBuilder.outputSchema exStore2 1 wFailSchema).1 [] (Value.num 4)
      = createAction wSchema (some wFailSchema) (Value.str "meta") wCfg wHandler []
          (Value.num 4) := by
  have h := claim_C7_amended_builder_ops exStore2 0 ⟨wSchema, wCfg, none⟩
    (Value.str "m") wFailSchema rfl
  have hmb := h.2.2.1 1 ⟨wSchema, Value.str "meta", wCfg, none⟩ rfl
  have hlive := h.2.2.2.1 wHandler [] (Value.num 4)
  have hmblive := h.2.2.2.2 1 ⟨wSchema, Value.str "meta", wCfg, none⟩ rfl wHandler []
    (Value.num 4)
  exact ⟨h.1.1, h.1.2.1, h.1.2.2 0 (by decide), h.2.1.2.1, hmb.1, hmb.2.1,
    hlive.2, hmblive⟩

/-- C8: a built action closes over the client's live middleware list, so
a middleware registered with `use` after the action was built is seen by
later invocations: invoking through the mutated client runs the action on
the updated list, and the newly appended middleware is actually called —
at the index equal to the registry length before the append. -/
theorem claim_C8_live_registry (c : ClientState) (mw' : Middleware) (st : Store)
    (id : Nat) (s : SBState) (handler : Handler) (input parsed : Value)
    (hobj : st[id]? = some (BObj.sb s))
    (hin : s.schema input = ParseOutcome.ok parsed)
    (hall : AllNext c.middlewares) :
    invoke (MockSafeActionClient.use c mw') st (SchemaBuilder.action id handler) input
        = SchemaBuilder.action id handler st (c.middlewares ++ [mw']) input ∧
    ∃ ctx', Event.mwCalled c.middlewares.length ⟨ctx', Value.undef⟩
        ∈ (invoke (MockSafeActionClient.use c mw') st
            (SchemaBuilder.action id handler) input).2 := by
  have hact : SchemaBuilder.action id handler st
      = fun mws inp =>
          createAction s.schema s.outSchemaF Value.undef s.config handler mws inp := by
    funext mws inp
    simp only [SchemaBuilder.action, hobj]
  refine ⟨rfl, ?_⟩
  show ∃ ctx', Event.mwCalled c.middlewares.length ⟨ctx', Value.undef⟩
    ∈ (SchemaBuilder.action id handler st (c.middlewares ++ [mw']) input).2
  rw [hact]
  dsimp only
  have htr : (createAction s.schema s.outSchemaF Value.undef s.config handler
        (c.middlewares ++ [mw']) input).2
      = (middlewareChain Value.undef handler parsed (c.middlewares ++ [mw']) 0 []).2 := by
    unfold createAction validateInput
    rw [hin]
    exact runChainAndFinish_trace _ _ _ _ _ _
  rw [htr]
  obtain ⟨ctx', tr, heq, -⟩ := middlewareChain_append_allNext Value.undef handler parsed
    [mw'] c.middlewares hall 0 []
  obtain ⟨tr', hhead⟩ := middlewareChain_cons_head Value.undef handler parsed mw' []
    (0 + c.middlewares.length) ctx'
  refine ⟨ctx', ?_⟩
  rw [heq]
  dsimp only
  rw [hhead]
  simp only [Nat.zero_add]
  exact List.mem_append_right _ (List.mem_cons_self _ _)

/-- A client with one middleware registered before the action is built. -/
def wClient1 : ClientState :=
  MockSafeActionClient.use (createMockSafeActionClient none) wNextMw

theorem claim_C8_witness :
    ∃ ctx', Event.mwCalled 1 ⟨ctx', Value.undef⟩
      ∈ (invoke (MockSafeActionClient.use wClient1 wThrower) exStore
          (SchemaBuilder.action 0 wHandler) (Value.num 2)).2 := by
  have hall : AllNext wClient1.middlewares := by
    have hml : wClient1.middlewares = [wNextMw] := rfl
    intro mw hmw args
    rw [hml, List.mem_singleton] at hmw
    subst hmw
    exact ⟨none, rfl⟩
  exact (claim_C8_live_registry wClient1 wThrower exStore 0 ⟨wSchema, wCfg, none⟩
    wHandler (Value.num 2) (Value.num 2) rfl rfl hall).2

/-- C9 fails on the code: supplying `defaultServerError: ""` (a present
field) does not survive the merge — the constructor's `||` treats the
empty string as falsy and substitutes the default. -/
theorem claim_C9_counterexample :
    (MockSafeActionClient.mkConfig
        (some { defaultServerError := some "", isProduction := none,
                auth := none })).defaultServerError
      = "Something went wrong" ∧ "Something went wrong" ≠ "" := by
  exact ⟨rfl, by decide⟩

/-- C9 amended: absent fields take the documented defaults; supplied
boolean fields (merged with `??`) always keep their value, `false`
included; supplied string fields (merged with `||`) keep their value when
non-empty and fall back to the default when empty. -/
theorem claim_C9_amended_config_merge (sc : SuppliedConfig) :
    MockSafeActionClient.mkConfig none
        = { defaultServerError := "Something went wrong", isProduction := false,
            auth := { enabled := true, testUserId := "test-user-id",
                      testUserEmail := "test@example.com",
                      testAuthToken := "test-token" } } ∧
    (∀ s : String, sc.defaultServerError = some s → s ≠ "" →
      (MockSafeActionClient.mkConfig (some sc)).defaultServerError = s) ∧
    (sc.defaultServerError = none ∨ sc.defaultServerError = some "" →
      (MockSafeActionClient.mkConfig (some sc)).defaultServerError
        = "Something went wrong") ∧
    (∀ b, sc.isProduction = some b →
      (MockSafeActionClient.mkConfig (some sc)).isProduction = b) ∧
    (sc.isProduction = none →
      (MockSafeActionClient.mkConfig (some sc)).isProduction = false) ∧
    (∀ sa b, sc.auth = some sa → sa.enabled = some b →
      (MockSafeActionClient.mkConfig (some sc)).auth.enabled = b) ∧
    (∀ sa s, sc.auth = some sa → sa.testUserId = some s → s ≠ "" →
      (MockSafeActionClient.mkConfig (some sc)).auth.testUserId = s) ∧
    (∀ sa s, sc.auth = some sa → sa.testUserEmail = some s → s ≠ "" →
      (MockSafeActionClient.mkConfig (some sc)).auth.testUserEmail = s) ∧
    (∀ sa s, sc.auth = some sa → sa.testAuthToken = some s → s ≠ "" →
      (MockSafeActionClient.mkConfig (some sc)).auth.testAuthToken = s) ∧
    (∀ sa, sc.auth = some sa → sa.enabled = none →
      (MockSafeActionClient.mkConfig (some sc)).auth.enabled = true) ∧
    (∀ sa, sc.auth = some sa → sa.testUserId = none ∨ sa.testUserId = some "" →
      (MockSafeActionClient.mkConfig (some sc)).auth.testUserId = "test-user-id") ∧
    (∀ sa, sc.auth = some sa → sa.testUserEmail = none ∨ sa.testUserEmail = some "" →
      (MockSafeActionClient.mkConfig (some sc)).auth.testUserEmail
        = "test@example.com") ∧
    (∀ sa, sc.auth = some sa → sa.testAuthToken = none ∨ sa.testAuthToken = some "" →
      (MockSafeActionClient.mkConfig (some sc)).auth.testAuthToken = "test-token") ∧
    (sc.auth = none → (MockSafeActionClient.mkConfig (some sc)).auth
        = (MockSafeActionClient.mkConfig none).auth) := by
  refine ⟨rfl, ?_, ?_, ?_, ?_, ?_, ?_, ?_, ?_, ?_, ?_, ?_, ?_, ?_⟩
  · intro s hs hne
    simp [MockSafeActionClient.mkConfig, jsOrDefault, hs, hne]
  · intro h
    rcases h with h | h <;> simp [MockSafeActionClient.mkConfig, jsOrDefault, h]
  · intro b hb
    simp [MockSafeActionClient.mkConfig, hb]
  · intro h
    simp [MockSafeActionClient.mkConfig, h]
  · intro sa b hsa hb
    simp [MockSafeActionClient.mkConfig, hsa, hb]
  · intro sa s hsa hs hne
    simp [MockSafeActionClient.mkConfig, jsOrDefault, hsa, hs, hne]
  · intro sa s hsa hs hne
    simp [MockSafeActionClient.mkConfig, jsOrDefault, hsa, hs, hne]
  · intro sa s hsa hs hne
    simp [MockSafeActionClient.mkConfig, jsOrDefault, hsa, hs, hne]
  · intro sa hsa h
    simp [MockSafeActionClient.mkConfig, hsa, h]
  · intro sa hsa h
    rcases h with h | h <;>
      simp [MockSafeActionClient.mkConfig, jsOrDefault, hsa, h]
  · intro sa hsa h
    rcases h with h | h <;>
      simp [MockSafeActionClient.mkConfig, jsOrDefault, hsa, h]
  · intro sa hsa h
    rcases h with h | h <;>
      simp [MockSafeActionClient.mkConfig, jsOrDefault, hsa, h]
  · intro h
    simp [MockSafeActionClient.mkConfig, jsOrDefault, h]

/-- A supplied configuration exercising the preserved-field cases,
including a `false` boolean. -/
def wSupplied : SuppliedConfig :=
  { defaultServerError := some "Custom error", isProduction := some true,
    auth := some { enabled := some false, testUserId := some "custom-id",
                   testUserEmail := none, testAuthToken := none } }

/-- A supplied configuration exercising the fallback cases on a present
`auth` object: `enabled` absent, `testUserId` and `testAuthToken` empty
strings, `testUserEmail` absent. -/
def wSupplied2 : SuppliedConfig :=
  { defaultServerError := none, isProduction := none,
    auth := some { enabled := none, testUserId := some "", testUserEmail := none,
                   testAuthToken := some "" } }

theorem claim_C9_witness :
    (MockSafeActionClient.mkConfig (some wSupplied)).defaultServerError
        = "Custom error" ∧
    (MockSafeActionClient.mkConfig (some wSupplied)).isProduction = true ∧
    (MockSafeActionClient.mkConfig (some wSupplied)).auth.enabled = false ∧
    (MockSafeActionClient.mkConfig (some wSupplied)).auth.testUserId = "custom-id" ∧
    (MockSafeActionClient.mkConfig (some wSupplied2)).auth.enabled = true ∧
    (MockSafeActionClient.mkConfig (some wSupplied2)).auth.testUserId
        = "test-user-id" ∧
    (MockSafeActionClient.mkConfig (some wSupplied2)).auth.testUserEmail
        = "test@example.com" ∧
    (MockSafeActionClient.mkConfig (some wSupplied2)).auth.testAuthToken
        = "test-token" := by
  obtain ⟨-, h2, -, h4, -, h6, h7, -, -, -, -, -, -, -⟩ :=
    claim_C9_amended_config_merge wSupplied
  obtain ⟨-, -, -, -, -, -, -, -, -, g10, g11, g12, g13, -⟩ :=
    claim_C9_amended_config_merge wSupplied2
  exact ⟨h2 "Custom error" rfl (by decide), h4 true rfl, h6 _ false rfl rfl,
    h7 _ "custom-id" rfl rfl (by decide), g10 _ rfl rfl, g11 _ rfl (Or.inr rfl),
    g12 _ rfl (Or.inl rfl), g13 _ rfl (Or.inr rfl)⟩

/-- C10: an action built by calling `.action` directly on the
input-schema builder (never calling `.metadata`) passes `undefined` as
the metadata of every middleware call of every invocation. -/
theorem claim_C10_metadata_undefined (st : Store) (id : Nat) (s : SBState)
    (handler : Handler) (mws : List Middleware) (input : Value)
    (hobj : st[id]? = some (BObj.sb s)) :
    ∀ i args, Event.mwCalled i args
        ∈ (SchemaBuilder.action id handler st mws input).2 →
      args.metadata = Value.undef := by
  intro i args hmem
  have hact : SchemaBuilder.action id handler st
      = fun mws inp =>
          createAction s.schema s.outSchemaF Value.undef s.config handler mws inp := by
    funext mws inp
    simp only [SchemaBuilder.action, hobj]
  rw [hact] at hmem
  dsimp only at hmem
  rcases createAction_trace s.schema s.outSchemaF Value.undef s.config handler mws input
    with h | ⟨parsed, hin, h⟩
  · rw [h] at hmem
    simp at hmem
  · rw [h] at hmem
    exact middlewareChain_metadata_mem Value.undef handler parsed mws 0 [] i args hmem

theorem claim_C10_witness :
    Event.mwCalled 0 ⟨[], Value.undef⟩
      ∈ (SchemaBuilder.action 0 wHandler exStore [wNextMw] (Value.num 1)).2 ∧
    (∀ i args, Event.mwCalled i args
        ∈ (SchemaBuilder.action 0 wHandler exStore [wNextMw] (Value.num 1)).2 →
      args.metadata = Value.undef) := by
  refine ⟨by decide, fun i args h =>
    claim_C10_metadata_undefined exStore 0 ⟨wSchema, wCfg, none⟩ wHandler [wNextMw]
      (Value.num 1) rfl i args h⟩

end Safemocker
